import Mathlib

/-!
Shallow embedding of the nuxeo-api-testing crawler and comparison driver
(`nuxeo_query.py`, `compare.py`).

HTTP transport, JSON serialization and the raw storage primitives are
external collaborators: they are modelled as function parameters
(environments).  Each `while` loop of the source is modelled as a
fuel-indexed recursive function; the fuel is an embedding device only.
Python decimal formatting of integers (`f"fp{page_index}"` etc.) is
modelled by `natRepr` below, which produces the usual base-10 numeral.
-/

/-- Base-10 digits of `n`, most significant first (fuel-based so that it
reduces definitionally; `fuel = n + 1` always suffices). -/
def toDecAux : Nat → Nat → List Char
  | 0, _ => []
  | fuel + 1, n =>
    if n < 10 then [Nat.digitChar n]
    else toDecAux fuel (n / 10) ++ [Nat.digitChar (n % 10)]

/-- Decimal string representation of a natural number, as Python `str(n)`
produces it. -/
def natRepr (n : Nat) : String := String.mk (toDecAux (n + 1) n)

/-- Numeric value of a decimal digit character. -/
def digitVal (c : Char) : Nat := c.toNat - 48

/-- Fold a digit string back into a number, starting from accumulator `a`. -/
def parseDecAux (a : Nat) (cs : List Char) : Nat :=
  cs.foldl (fun acc c => acc * 10 + digitVal c) a

theorem digitVal_digitChar : ∀ d, d < 10 → digitVal (Nat.digitChar d) = d := by decide

theorem toDecAux_ne_nil (fuel n : Nat) (h : n < fuel) : toDecAux fuel n ≠ [] := by
  cases fuel with
  | zero => omega
  | succ f =>
    unfold toDecAux
    by_cases h10 : n < 10
    · simp [h10]
    · simp [h10]

theorem parseDecAux_toDecAux (fuel : Nat) :
    ∀ n a, n < fuel →
      parseDecAux a (toDecAux fuel n) = a * 10 ^ (toDecAux fuel n).length + n := by
  induction fuel with
  | zero => intro n a h; omega
  | succ f ih =>
    intro n a h
    unfold toDecAux
    by_cases h10 : n < 10
    · simp only [h10, if_true]
      simp [parseDecAux, digitVal_digitChar n h10]
    · simp only [h10, if_false]
      have hn0 : 0 < n := by omega
      have hdiv : n / 10 < n := Nat.div_lt_self hn0 (by omega)
      have hdivf : n / 10 < f := by omega
      have hmod : n % 10 < 10 := Nat.mod_lt _ (by omega)
      simp only [parseDecAux, List.foldl_append, List.length_append, List.foldl_cons,
        List.foldl_nil, List.length_cons, List.length_nil]
      have := ih (n / 10) a hdivf
      simp only [parseDecAux] at this
      rw [this, digitVal_digitChar _ hmod]
      have : a * 10 ^ ((toDecAux f (n / 10)).length + (0 + 1))
          = (a * 10 ^ (toDecAux f (n / 10)).length) * 10 := by ring
      rw [this]
      have hrec : (a * 10 ^ (toDecAux f (n / 10)).length + n / 10) * 10 + n % 10
          = a * 10 ^ (toDecAux f (n / 10)).length * 10 + (10 * (n / 10) + n % 10) := by ring
      rw [hrec, Nat.div_add_mod]

theorem toDecAux_inj {m n : Nat} (h : toDecAux (m + 1) m = toDecAux (n + 1) n) : m = n := by
  have hm := parseDecAux_toDecAux (m + 1) m 0 (Nat.lt_succ_self m)
  have hn := parseDecAux_toDecAux (n + 1) n 0 (Nat.lt_succ_self n)
  simp only [Nat.zero_mul, Nat.zero_add] at hm hn
  rw [← hm, ← hn, h]

theorem natRepr_inj {m n : Nat} (h : natRepr m = natRepr n) : m = n := by
  unfold natRepr at h
  exact toDecAux_inj (congrArg String.data h)

theorem string_data_append (s t : String) : (s ++ t).data = s.data ++ t.data := rfl

theorem string_append_left_cancel {s a b : String} (h : s ++ a = s ++ b) : a = b := by
  have hd : s.data ++ a.data = s.data ++ b.data := by
    have := congrArg String.data h
    simpa [string_data_append] using this
  have hab : a.data = b.data := List.append_cancel_left hd
  cases a; cases b; exact congrArg String.mk hab

/-- `sep.join(parts)` as Python's `str.join` computes it. -/
def joinSep (sep : String) : List String → String
  | [] => ""
  | [s] => s
  | s :: t :: rest => s ++ sep ++ joinSep sep (t :: rest)

/-- `os.path.join` on the relative path fragments the crawler produces. -/
def joinPath (parts : List String) : String := joinSep "/" parts

/-- Python `str.lstrip('/')`. -/
def dropLeadingSlashes (s : String) : String := String.mk (s.data.dropWhile (· = '/'))

/-- Split a character stream into lines, each keeping its terminating
newline, as Python's `f.readlines()` does; `acc` holds the (reversed)
characters of the line currently being read. -/
def splitAfterNlAux (acc : List Char) : List Char → List (List Char)
  | [] => if acc = [] then [] else [acc.reverse]
  | c :: rest =>
    if c = '\n' then (acc.reverse ++ ['\n']) :: splitAfterNlAux [] rest
    else splitAfterNlAux (c :: acc) rest

/-- Python `f.readlines()`: lines of the text, newline terminators kept. -/
def readlines (s : String) : List String :=
  (splitAfterNlAux [] s.data).map String.mk

/-- Drop one trailing newline from a line, if present. -/
def stripNl (l : List Char) : List Char :=
  if l.getLast? = some '\n' then l.dropLast else l

/-- botocore `Body.iter_lines()`: lines of the text without their newline
terminators. -/
def iterLines (s : String) : List String :=
  (splitAfterNlAux [] s.data).map (fun l => String.mk (stripNl l))

theorem splitAfterNlAux_append (s : List Char) :
    ∀ (acc t : List Char), '\n' ∉ s →
      splitAfterNlAux acc (s ++ '\n' :: t)
        = (acc.reverse ++ s ++ ['\n']) :: splitAfterNlAux [] t := by
  induction s with
  | nil =>
    intro acc t _
    simp [splitAfterNlAux]
  | cons c s' ih =>
    intro acc t h
    have hc : c ≠ '\n' := fun hc => h (by simp [hc])
    have hs' : '\n' ∉ s' := fun hm => h (List.mem_cons_of_mem _ hm)
    have step : splitAfterNlAux acc ((c :: s') ++ '\n' :: t)
        = splitAfterNlAux (c :: acc) (s' ++ '\n' :: t) := by
      simp [splitAfterNlAux, hc]
    rw [step, ih (c :: acc) t hs']
    simp

/- ────────────────────────────────────────────────────────────────────────
   Data model
   ──────────────────────────────────────────────────────────────────────── -/

/-- A document reference as the crawler reads it from a backend response:
only the `uid` and (for components) the `pos` field are consulted by the
core logic. -/
structure Doc where
  uid : String
  pos : Nat
deriving DecidableEq, Repr

/-- One backend page response: its `entries`, its `isNextPageAvailable`
flag, and (Lookup-service variant) its `resumeAfter` continuation token. -/
structure PageResponse where
  entries : List Doc
  isNextPageAvailable : Bool
  resumeAfter : String
deriving DecidableEq, Repr

/-- `parse_data_uri`'s result, mirroring the `DataStorage` namedtuple. -/
structure DataStorage where
  uri : String
  store : String
  bucket : String
  path : String
deriving DecidableEq, Repr

/-- A single write issued to a storage collaborator:
`write_object_to_local dir filename content` or an S3 `put_object`. -/
inductive WriteAction where
  | localWrite (dir : String) (filename : String) (content : String)
  | s3Put (bucket : String) (key : String) (content : String)
deriving DecidableEq, Repr

/-- Observable crawl events: page requests issued to a backend, entry into
`get_pages_of_documents` for a folder (recording the locus segments in use
at that moment), and artifact stores. -/
inductive CrawlEv where
  | reqFolders (uid : String) (pageIndex : Nat)
  | reqParents (uid : String) (pageIndex : Nat)
  | reqComps (uid : String) (pageIndex : Nat)
  | reqDbDocs (uid : String) (resumeAfter : String)
  | visit (uid : String) (locus : List String)
  | storeParent (locus : List String) (pageIndex : Nat) (records : List Doc)
  | storeComponent (parentUid : String) (pageIndex : Nat) (records : List Doc)
deriving DecidableEq, Repr

/- ────────────────────────────────────────────────────────────────────────
   Artifact writers (`nuxeo_query.py` lines 51-104)
   ──────────────────────────────────────────────────────────────────────── -/

/-- `load_object_to_s3`: the `put_object` call (a collaborator, its outcome
passed in as `putResult`) is wrapped in `try/except`; a failure is printed
(first component) and the function still returns the `s3://` URI. -/
def load_object_to_s3 (putResult : Except String Unit) (bucket key : String) :
    Option String × String :=
  match putResult with
  | .ok _ => (none, "s3://" ++ bucket ++ "/" ++ key)
  | .error e => (some ("ERROR loading to S3: " ++ e), "s3://" ++ bucket ++ "/" ++ key)

/-- The `jsonl` string both store functions build:
`"\n".join(json.dumps(r) for r in records) + "\n"`; `serialize` stands for
`json.dumps`. -/
def jsonlContent {α : Type} (serialize : α → String) (records : List α) : String :=
  joinSep "\n" (records.map serialize) ++ "\n"

/-- `store_parent_metadata_page`: filename from the joined locus segments
and the page index; dispatch on the storage scheme. -/
def store_parent_metadata_page {α : Type} (serialize : α → String)
    (storage : DataStorage) (collection_id version query_method : String)
    (pagePfx : List String) (pageIndex : Nat) (records : List α) :
    Except String WriteAction :=
  let filename := joinSep "-" pagePfx ++ "-p" ++ natRepr pageIndex ++ ".jsonl"
  let jsonl := jsonlContent serialize records
  let metadata_path := joinPath [storage.path, collection_id, version, query_method]
  if storage.store = "file" then
    .ok (.localWrite metadata_path filename jsonl)
  else if storage.store = "s3" then
    .ok (.s3Put storage.bucket (dropLeadingSlashes metadata_path ++ "/" ++ filename) jsonl)
  else
    .error ("Unknown data scheme: " ++ storage.store)

/-- `store_component_metadata_page`: filename from the parent record's uid
and the page index; the path gains a `children` segment. -/
def store_component_metadata_page {α : Type} (serialize : α → String)
    (storage : DataStorage) (collection_id version query_method : String)
    (parent_uid : String) (pageIndex : Nat) (records : List α) :
    Except String WriteAction :=
  let filename := parent_uid ++ "-p" ++ natRepr pageIndex ++ ".jsonl"
  let jsonl := jsonlContent serialize records
  let metadata_path := joinPath [storage.path, collection_id, version, query_method, "children"]
  if storage.store = "file" then
    .ok (.localWrite metadata_path filename jsonl)
  else if storage.store = "s3" then
    .ok (.s3Put storage.bucket (dropLeadingSlashes metadata_path ++ "/" ++ filename) jsonl)
  else
    .error ("Unknown data scheme: " ++ storage.store)

/- ────────────────────────────────────────────────────────────────────────
   Comparison loader and driver (`compare.py`)
   ──────────────────────────────────────────────────────────────────────── -/

/-- The storage collaborators `get_records` reads through: `os.listdir`,
`os.path.isfile`, file reads, and the S3 list/get pair. -/
structure LoaderEnv where
  listdir : String → List String
  isFile : String → Bool
  readFile : String → String
  s3ListKeys : String → List String
  s3GetObject : String → String

/-- The directory / key prefix `get_records` resolves for a key. -/
def resolvedPath (storage : DataStorage) (collection_id version query_method : String)
    (children : Bool) : String :=
  let base := joinPath [storage.path, collection_id, version, query_method]
  if children then joinPath [base, "children"] else base

/-- Records collected by `get_records`'s `file://` branch: every line of
every regular file in the directory, newline terminators kept. -/
def fileRecords (storage : DataStorage) (env : LoaderEnv)
    (collection_id version query_method : String) (children : Bool) : List String :=
  let metadata_path := resolvedPath storage collection_id version query_method children
  let files := (env.listdir metadata_path).filter
    (fun f => env.isFile (metadata_path ++ "/" ++ f))
  (files.map (fun f => readlines (env.readFile (metadata_path ++ "/" ++ f)))).flatten

/-- Records collected by `get_records`'s `s3` branch: every line of every
listed object whose key does not start with `{prefix}/children/`. -/
def s3Records (storage : DataStorage) (env : LoaderEnv)
    (collection_id version query_method : String) (children : Bool) : List String :=
  let keyPfx := dropLeadingSlashes
    (resolvedPath storage collection_id version query_method children)
  let keys := (env.s3ListKeys keyPfx).filter
    (fun k => !(keyPfx ++ "/children/").isPrefixOf k)
  (keys.map (fun k => iterLines (env.s3GetObject k))).flatten

/-- `get_records` (`compare.py` lines 20-62): dispatch on the storage
scheme, collect record lines, and fail when none are found. -/
def get_records (storage : DataStorage) (env : LoaderEnv)
    (collection_id version query_method : String) (children : Bool) :
    Except String (List String) :=
  let metadata_path := resolvedPath storage collection_id version query_method children
  if storage.store = "file" then
    let store_uri := "file://" ++ metadata_path
    let records := fileRecords storage env collection_id version query_method children
    if records.isEmpty then
      .error ("No metadata records found for collection " ++ collection_id
        ++ " at " ++ store_uri)
    else .ok records
  else if storage.store = "s3" then
    let store_uri := "s3://" ++ storage.bucket ++ "/" ++ dropLeadingSlashes metadata_path
    let records := s3Records storage env collection_id version query_method children
    if records.isEmpty then
      .error ("No metadata records found for collection " ++ collection_id
        ++ " at " ++ store_uri)
    else .ok records
  else
    .error ("Unknown data scheme: " ++ storage.store)

/-- What `compare.py`'s `main` prints: the four loaded sequences and the
two equality verdicts. -/
structure CompareReport where
  nuxeoapiParent : List String
  dbqueryParent : List String
  parentsEqual : Bool
  nuxeoapiChild : List String
  dbqueryChild : List String
  childrenEqual : Bool
deriving DecidableEq, Repr

/-- `compare.py`'s `main` (lines 64-79): both sides of each equality check
are loaded with the query-method key `'nuxeoapi'`. -/
def compare_main (storage : DataStorage) (env : LoaderEnv)
    (collection_id version : String) : Except String CompareReport := do
  let nuxeoapi_parent_data ← get_records storage env collection_id version "nuxeoapi" false
  let dbquery_parent_data ← get_records storage env collection_id version "nuxeoapi" false
  let nuxeoapi_child_data ← get_records storage env collection_id version "nuxeoapi" true
  let dbquery_child_data ← get_records storage env collection_id version "nuxeoapi" true
  pure {
    nuxeoapiParent := nuxeoapi_parent_data
    dbqueryParent := dbquery_parent_data
    parentsEqual := nuxeoapi_parent_data == dbquery_parent_data
    nuxeoapiChild := nuxeoapi_child_data
    dbqueryChild := dbquery_child_data
    childrenEqual := nuxeoapi_child_data == dbquery_child_data }

/- ────────────────────────────────────────────────────────────────────────
   NuxeoApiFetcher (`nuxeo_query.py` lines 106-262)

   The three query shapes are collaborators keyed by the parent uid and
   the zero-based page index the source sends as `currentPageIndex`.
   ──────────────────────────────────────────────────────────────────────── -/

/-- The API backend: `get_page_of_folders`, `get_page_of_parent_documents`
and `get_page_of_components` responses, keyed by parent uid and page
index. -/
structure NuxeoApiEnv where
  folders : String → Nat → PageResponse
  parents : String → Nat → PageResponse
  comps : String → Nat → PageResponse

/-- The `while` loop of `get_pages_of_component_documents`: request page
`pageIndex`, stop if the entry list is empty, otherwise store the page and
continue while `isNextPageAvailable`. -/
def apiComponentLoop (env : NuxeoApiEnv) (uid : String) : Nat → Nat → List CrawlEv
  | 0, _ => []
  | fuel + 1, pageIndex =>
    let resp := env.comps uid pageIndex
    CrawlEv.reqComps uid pageIndex ::
      (if resp.entries.isEmpty then []
       else CrawlEv.storeComponent uid pageIndex resp.entries ::
         (if resp.isNextPageAvailable then apiComponentLoop env uid fuel (pageIndex + 1)
          else []))

/-- The `for record in entries` loop inside `get_pages_of_documents`:
fetch each record's component pages. -/
def apiRecordComps (env : NuxeoApiEnv) (fuel : Nat) : List Doc → List CrawlEv
  | [] => []
  | r :: rest => apiComponentLoop env r.uid fuel 0 ++ apiRecordComps env fuel rest

/-- The `while` loop of `get_pages_of_documents`: request page
`pageIndex` of parent documents, stop if the entry list is empty,
otherwise store the page under `pagePfx`, fetch each record's components,
and continue while `isNextPageAvailable`. -/
def apiRecordLoop (env : NuxeoApiEnv) (folderUid : String) (pagePfx : List String) :
    Nat → Nat → List CrawlEv
  | 0, _ => []
  | fuel + 1, pageIndex =>
    let resp := env.parents folderUid pageIndex
    CrawlEv.reqParents folderUid pageIndex ::
      (if resp.entries.isEmpty then []
       else CrawlEv.storeParent pagePfx pageIndex resp.entries ::
         (apiRecordComps env fuel resp.entries ++
          (if resp.isNextPageAvailable then apiRecordLoop env folderUid pagePfx fuel (pageIndex + 1)
           else [])))

/-- `get_pages_of_documents(folder, page_prefix)`: the `visit` event records
the locus segments the call receives. -/
def get_pages_of_documents (env : NuxeoApiEnv) (folder : Doc)
    (pagePfx : List String) (fuel : Nat) : List CrawlEv :=
  CrawlEv.visit folder.uid pagePfx :: apiRecordLoop env folder.uid pagePfx fuel 0

/-- The `for i, folder in enumerate(entries)` loop of `folder_traversal`:
push `f{i}`, crawl the folder's record pages, pop. -/
def apiFolderInner (env : NuxeoApiEnv) (pagePfx : List String) (fuel : Nat) :
    Nat → List Doc → List CrawlEv
  | _, [] => []
  | i, folder :: rest =>
    get_pages_of_documents env folder (pagePfx ++ ["f" ++ natRepr i]) fuel ++
      apiFolderInner env pagePfx fuel (i + 1) rest

/-- The `while` loop of `NuxeoApiFetcher.folder_traversal`: request folder
page `pageIndex`, stop if the entry list is empty, otherwise push
`fp{pageIndex}`, crawl each folder of the page, pop, and continue while
`isNextPageAvailable`. -/
def apiFolderLoop (env : NuxeoApiEnv) (rootUid : String) (pagePfx : List String) :
    Nat → Nat → List CrawlEv
  | 0, _ => []
  | fuel + 1, pageIndex =>
    let resp := env.folders rootUid pageIndex
    CrawlEv.reqFolders rootUid pageIndex ::
      (if resp.entries.isEmpty then []
       else
        apiFolderInner env (pagePfx ++ ["fp" ++ natRepr pageIndex]) fuel 0 resp.entries ++
          (if resp.isNextPageAvailable then apiFolderLoop env rootUid pagePfx fuel (pageIndex + 1)
           else []))

/-- `NuxeoApiFetcher.folder_traversal(root_folder, page_prefix)`. -/
def folder_traversal (env : NuxeoApiEnv) (rootUid : String)
    (pagePfx : List String) (fuel : Nat) : List CrawlEv :=
  apiFolderLoop env rootUid pagePfx fuel 0

/-- `NuxeoApiFetcher.fetch`: the root folder's own record pages under
locus `["r"]`, then the traversal of the folders below it. -/
def nuxeoApiFetch (env : NuxeoApiEnv) (root : Doc) (fuel : Nat) : List CrawlEv :=
  get_pages_of_documents env root ["r"] fuel ++ folder_traversal env root.uid ["r"] fuel

/-- The loci at which `get_pages_of_documents` was entered, in call
order. -/
def visitLoci (evs : List CrawlEv) : List (List String) :=
  evs.filterMap (fun e => match e with
    | CrawlEv.visit _ locus => some locus
    | _ => none)

/- ────────────────────────────────────────────────────────────────────────
   DbQueryFetcher (`nuxeo_query.py` lines 264-467)

   The two query shapes (`get_page_of_folders`, `get_page_of_documents`)
   are collaborators keyed by the parent uid and the `resume_after`
   continuation token the source sends.
   ──────────────────────────────────────────────────────────────────────── -/

/-- The Lookup-service backend: folder-listing and document (record /
component) responses, keyed by parent uid and `resume_after` token. -/
structure DbEnv where
  folders : String → String → PageResponse
  documents : String → String → PageResponse

/-- The `while` loop of `DbQueryFetcher.get_child_folders` (lines
315-328).  Note: unlike every other pagination loop in the source, this
one has no empty-entries guard — it keeps requesting pages while
`isNextPageAvailable` is true.  Returns the collected subfolders and the
number of page requests issued. -/
def get_child_folders (env : DbEnv) (folderUid : String) :
    Nat → String → List Doc × Nat
  | 0, _ => ([], 0)
  | fuel + 1, resumeAfter =>
    let resp := env.folders folderUid resumeAfter
    if resp.isNextPageAvailable then
      let rest := get_child_folders env folderUid fuel resp.resumeAfter
      (resp.entries ++ rest.1, rest.2 + 1)
    else (resp.entries, 1)

/-- The inner `recurse(folders)` of `get_descendant_folders`: list the
given folders, then for each folder (in order) the descendants of its
children. -/
def descendRecurse (env : DbEnv) (pageFuel : Nat) : Nat → List Doc → List Doc
  | 0, _ => []
  | depth + 1, folders =>
    folders ++
      (folders.map (fun f =>
        descendRecurse env pageFuel depth (get_child_folders env f.uid pageFuel "").1)).flatten

/-- `DbQueryFetcher.get_descendant_folders`: phase 1 of the two-phase
crawl, flattening the whole folder tree depth-first. -/
def get_descendant_folders (env : DbEnv) (rootUid : String) (fuel : Nat) : List Doc :=
  descendRecurse env fuel fuel (get_child_folders env rootUid fuel "").1

/-- The component-collection `while` loop of
`get_pages_of_child_components` (lines 360-368): stop on an empty entry
list even when `isNextPageAvailable` is true; otherwise extend the
component list and continue while `isNextPageAvailable`.  Returns the
collected components and the number of page requests issued. -/
def dbCollectComponents (env : DbEnv) (uid : String) :
    Nat → String → List Doc × Nat
  | 0, _ => ([], 0)
  | fuel + 1, resumeAfter =>
    let resp := env.documents uid resumeAfter
    if resp.entries.isEmpty then ([], 1)
    else if resp.isNextPageAvailable then
      let rest := dbCollectComponents env uid fuel resp.resumeAfter
      (resp.entries ++ rest.1, rest.2 + 1)
    else (resp.entries, 1)

/-- Insert `c` behind every already-placed component whose `pos` is `≤`
its own, as one step of Python's stable ascending sort. -/
def insertPos (c : Doc) : List Doc → List Doc
  | [] => [c]
  | d :: ds => if d.pos ≤ c.pos then d :: insertPos c ds else c :: d :: ds

/-- `sorted(components, key=lambda x: x['pos'])`: stable ascending sort by
the declared position field. -/
def sortByPos (l : List Doc) : List Doc := l.foldl (fun acc c => insertPos c acc) []

/-- The re-chunking loop `for i in range(0, len(components), batch_size)`
with `batch_size = 100`: the slices `components[i:i+100]`. -/
def chunk100 (l : List Doc) : List (List Doc) :=
  (List.range ((l.length + 99) / 100)).map (fun j => (l.drop (j * 100)).take 100)

/-- `DbQueryFetcher.get_pages_of_child_components` (lines 353-376):
exhaust all component pages into one list, sort it by `pos`, and re-chunk
into batches of 100. -/
def get_pages_of_child_components (env : DbEnv) (uid : String) (fuel : Nat) :
    List (List Doc) :=
  chunk100 (sortByPos (dbCollectComponents env uid fuel "").1)

/-- The inner `recurse(pages)` of `get_pages_of_record_components`: list
the given pages, then for each record of each page the pages of its own
sub-components. -/
def dbComponentRecurse (env : DbEnv) (pageFuel : Nat) :
    Nat → List (List Doc) → List (List Doc)
  | 0, _ => []
  | depth + 1, pages =>
    pages ++
      (pages.map (fun page =>
        (page.map (fun record =>
          dbComponentRecurse env pageFuel depth
            (get_pages_of_child_components env record.uid pageFuel))).flatten)).flatten

/-- `DbQueryFetcher.get_pages_of_record_components`: gather all component
pages below `rootRecord` and store them under its uid with consecutive
page indices. -/
def get_pages_of_record_components (env : DbEnv) (rootRecord : Doc) (fuel : Nat) :
    List CrawlEv :=
  let allPages := dbComponentRecurse env fuel fuel
    (get_pages_of_child_components env rootRecord.uid fuel)
  (allPages.enum.map (fun p => CrawlEv.storeComponent rootRecord.uid p.1 p.2))

/-- The `for record in entries` loop inside `get_pages_of_records`. -/
def dbRecordComps (env : DbEnv) (fuel : Nat) : List Doc → List CrawlEv
  | [] => []
  | r :: rest => get_pages_of_record_components env r fuel ++ dbRecordComps env fuel rest

/-- The `while` loop of `DbQueryFetcher.get_pages_of_records` (lines
428-444): request a page of records, stop if the entry list is empty,
otherwise store the page and fetch each record's components.  The
`record_pages` accumulator (`acc`) is threaded through unchanged, exactly
as in the source, which never appends to it. -/
def dbRecordLoop (env : DbEnv) (folderUid : String) (pagePfx : List String) :
    Nat → Nat → String → List (List Doc) → List (List Doc) × List CrawlEv
  | 0, _, _, acc => (acc, [])
  | fuel + 1, pageCount, resumeAfter, acc =>
    let resp := env.documents folderUid resumeAfter
    if resp.entries.isEmpty then (acc, [CrawlEv.reqDbDocs folderUid resumeAfter])
    else
      let here := CrawlEv.reqDbDocs folderUid resumeAfter ::
        CrawlEv.storeParent pagePfx pageCount resp.entries ::
          dbRecordComps env fuel resp.entries
      if resp.isNextPageAvailable then
        let rest := dbRecordLoop env folderUid pagePfx fuel (pageCount + 1) resp.resumeAfter acc
        (rest.1, here ++ rest.2)
      else (acc, here)

/-- `DbQueryFetcher.get_pages_of_records(folder, page_prefix)`: runs the
record-page loop with `record_pages = []`, `record_page_count = 0`,
`resume_after = ''`. -/
def get_pages_of_records (env : DbEnv) (folderUid : String)
    (pagePfx : List String) (fuel : Nat) : List (List Doc) × List CrawlEv :=
  dbRecordLoop env folderUid pagePfx fuel 0 "" []

/-- The `for i, folder in enumerate(collection_folders)` loop of
`DbQueryFetcher.folder_traversal`: push `f{i}`, fetch the folder's record
pages, pop, and `extend` the page accumulator with the returned pages. -/
def dbTraversalInner (env : DbEnv) (pagePfx : List String) (fuel : Nat) :
    Nat → List Doc → List (List Doc) × List CrawlEv
  | _, [] => ([], [])
  | i, f :: rest =>
    let r := get_pages_of_records env f.uid (pagePfx ++ ["f" ++ natRepr i]) fuel
    let rr := dbTraversalInner env pagePfx fuel (i + 1) rest
    (r.1 ++ rr.1, r.2 ++ rr.2)

/-- `DbQueryFetcher.folder_traversal(root_folder, page_prefix)` (lines
286-296): discover all descendant folders, then fetch each one's record
pages; returns the `pages` accumulator and the crawl events. -/
def db_folder_traversal (env : DbEnv) (rootUid : String)
    (pagePfx : List String) (fuel : Nat) : List (List Doc) × List CrawlEv :=
  let collection_folders := get_descendant_folders env rootUid fuel
  dbTraversalInner env pagePfx fuel 0 collection_folders

/- ────────────────────────────────────────────────────────────────────────
   Claim theorems
   ──────────────────────────────────────────────────────────────────────── -/

/-- C5: artifact filenames are deterministic — a parent page is named
`"-".join(locus segments) + "-p{page_index}.jsonl"` under
`{collection_id}/{version}/{query_method}/`, and a component page is named
`"{parent_uid}-p{page_index}.jsonl"` under the added `children` sub-path,
for both storage schemes. -/
theorem c5_deterministic_artifact_names {α : Type} (serialize : α → String)
    (storage : DataStorage) (collection_id version query_method parent_uid : String)
    (pagePfx : List String) (pageIndex : Nat) (records : List α) :
    (storage.store = "file" →
      store_parent_metadata_page serialize storage collection_id version query_method
          pagePfx pageIndex records
        = .ok (.localWrite (joinPath [storage.path, collection_id, version, query_method])
            (joinSep "-" pagePfx ++ "-p" ++ natRepr pageIndex ++ ".jsonl")
            (jsonlContent serialize records))
      ∧ store_component_metadata_page serialize storage collection_id version query_method
          parent_uid pageIndex records
        = .ok (.localWrite
            (joinPath [storage.path, collection_id, version, query_method, "children"])
            (parent_uid ++ "-p" ++ natRepr pageIndex ++ ".jsonl")
            (jsonlContent serialize records)))
    ∧ (storage.store = "s3" →
      store_parent_metadata_page serialize storage collection_id version query_method
          pagePfx pageIndex records
        = .ok (.s3Put storage.bucket
            (dropLeadingSlashes (joinPath [storage.path, collection_id, version, query_method])
              ++ "/" ++ (joinSep "-" pagePfx ++ "-p" ++ natRepr pageIndex ++ ".jsonl"))
            (jsonlContent serialize records))
      ∧ store_component_metadata_page serialize storage collection_id version query_method
          parent_uid pageIndex records
        = .ok (.s3Put storage.bucket
            (dropLeadingSlashes
                (joinPath [storage.path, collection_id, version, query_method, "children"])
              ++ "/" ++ (parent_uid ++ "-p" ++ natRepr pageIndex ++ ".jsonl"))
            (jsonlContent serialize records))) := by
  constructor
  · intro hfile
    constructor
    · simp [store_parent_metadata_page, hfile]
    · simp [store_component_metadata_page, hfile]
  · intro hs3
    have hnotfile : storage.store ≠ "file" := by rw [hs3]; decide
    constructor
    · simp [store_parent_metadata_page, hs3, hnotfile]
    · simp [store_component_metadata_page, hs3, hnotfile]

theorem c5_deterministic_artifact_names_witness :
    (store_parent_metadata_page (fun d : Doc => d.uid)
        ⟨"file:///md", "file", "", "/md"⟩ "26943" "v1" "nuxeoapi"
        ["r", "fp0", "f0"] 0 [⟨"u1", 0⟩]
      = .ok (.localWrite (joinPath ["/md", "26943", "v1", "nuxeoapi"])
          (joinSep "-" ["r", "fp0", "f0"] ++ "-p" ++ natRepr 0 ++ ".jsonl")
          (jsonlContent (fun d : Doc => d.uid) [⟨"u1", 0⟩])))
    ∧ (store_component_metadata_page (fun d : Doc => d.uid)
        ⟨"s3://bkt/md", "s3", "bkt", "/md"⟩ "26943" "v1" "nuxeoapi"
        "parentuid" 2 [⟨"u1", 0⟩]
      = .ok (.s3Put "bkt"
          (dropLeadingSlashes (joinPath ["/md", "26943", "v1", "nuxeoapi", "children"])
            ++ "/" ++ ("parentuid" ++ "-p" ++ natRepr 2 ++ ".jsonl"))
          (jsonlContent (fun d : Doc => d.uid) [⟨"u1", 0⟩]))) :=
  ⟨((c5_deterministic_artifact_names (fun d : Doc => d.uid)
      ⟨"file:///md", "file", "", "/md"⟩ "26943" "v1" "nuxeoapi" "parentuid"
      ["r", "fp0", "f0"] 0 [⟨"u1", 0⟩]).1 rfl).1,
   ((c5_deterministic_artifact_names (fun d : Doc => d.uid)
      ⟨"s3://bkt/md", "s3", "bkt", "/md"⟩ "26943" "v1" "nuxeoapi" "parentuid"
      ["r", "fp0", "f0"] 2 [⟨"u1", 0⟩]).2 rfl).2⟩

/-- C7: a failed object-store write is reported and swallowed —
`load_object_to_s3` returns the `s3://` URI whether or not the underlying
`put_object` fails, reporting the error in the failure case, so the crawl
continues with the artifact missing. -/
theorem c7_storage_write_failure_nonfatal :
    (∀ (bucket key e : String),
      load_object_to_s3 (Except.error e) bucket key
        = (some ("ERROR loading to S3: " ++ e), "s3://" ++ bucket ++ "/" ++ key))
    ∧ (∀ (bucket key : String),
      load_object_to_s3 (Except.ok ()) bucket key
        = (none, "s3://" ++ bucket ++ "/" ++ key))
    ∧ (∀ (putResult : Except String Unit) (bucket key : String),
      (load_object_to_s3 putResult bucket key).2 = "s3://" ++ bucket ++ "/" ++ key) := by
  refine ⟨fun _ _ _ => rfl, fun _ _ => rfl, fun putResult _ _ => ?_⟩
  cases putResult <;> rfl

/-- C9: a metadata-store URI with a scheme other than `file` or `s3` makes
both artifact writers and the comparison loader fail with an exception
naming the unknown scheme, with no write performed and no data returned. -/
theorem c9_unknown_scheme_rejected {α : Type} (serialize : α → String)
    (storage : DataStorage) (env : LoaderEnv)
    (collection_id version query_method parent_uid : String)
    (pagePfx : List String) (pageIndex : Nat) (records : List α) (children : Bool)
    (h1 : storage.store ≠ "file") (h2 : storage.store ≠ "s3") :
    store_parent_metadata_page serialize storage collection_id version query_method
        pagePfx pageIndex records
      = .error ("Unknown data scheme: " ++ storage.store)
    ∧ store_component_metadata_page serialize storage collection_id version query_method
        parent_uid pageIndex records
      = .error ("Unknown data scheme: " ++ storage.store)
    ∧ get_records storage env collection_id version query_method children
      = .error ("Unknown data scheme: " ++ storage.store) := by
  refine ⟨?_, ?_, ?_⟩
  · simp [store_parent_metadata_page, h1, h2]
  · simp [store_component_metadata_page, h1, h2]
  · simp [get_records, h1, h2]

theorem c9_unknown_scheme_rejected_witness :
    store_parent_metadata_page (fun d : Doc => d.uid)
        ⟨"gopher://h/md", "gopher", "h", "/md"⟩ "26943" "v1" "nuxeoapi"
        ["r"] 0 [⟨"u1", 0⟩]
      = .error ("Unknown data scheme: " ++ "gopher")
    ∧ store_component_metadata_page (fun d : Doc => d.uid)
        ⟨"gopher://h/md", "gopher", "h", "/md"⟩ "26943" "v1" "nuxeoapi"
        "parentuid" 0 [⟨"u1", 0⟩]
      = .error ("Unknown data scheme: " ++ "gopher")
    ∧ get_records ⟨"gopher://h/md", "gopher", "h", "/md"⟩
        ⟨fun _ => [], fun _ => false, fun _ => "", fun _ => [], fun _ => ""⟩
        "26943" "v1" "nuxeoapi" false
      = .error ("Unknown data scheme: " ++ "gopher") :=
  c9_unknown_scheme_rejected (fun d : Doc => d.uid)
    ⟨"gopher://h/md", "gopher", "h", "/md"⟩
    ⟨fun _ => [], fun _ => false, fun _ => "", fun _ => [], fun _ => ""⟩
    "26943" "v1" "nuxeoapi" "parentuid" ["r"] 0 [⟨"u1", 0⟩] false
    (by decide) (by decide)

theorem dbRecordLoop_fst (env : DbEnv) (folderUid : String) (pagePfx : List String) :
    ∀ (fuel pageCount : Nat) (resumeAfter : String) (acc : List (List Doc)),
      (dbRecordLoop env folderUid pagePfx fuel pageCount resumeAfter acc).1 = acc := by
  intro fuel
  induction fuel with
  | zero => intro pageCount resumeAfter acc; rfl
  | succ f ih =>
    intro pageCount resumeAfter acc
    unfold dbRecordLoop
    by_cases he : (env.documents folderUid resumeAfter).entries.isEmpty
    · simp [he]
    · by_cases hm : (env.documents folderUid resumeAfter).isNextPageAvailable
      · simp [he, hm, ih]
      · simp [he, hm]

theorem dbTraversalInner_fst (env : DbEnv) (pagePfx : List String) (fuel : Nat) :
    ∀ (folders : List Doc) (i : Nat),
      (dbTraversalInner env pagePfx fuel i folders).1 = [] := by
  intro folders
  induction folders with
  | nil => intro i; rfl
  | cons f rest ih =>
    intro i
    unfold dbTraversalInner
    simp [dbRecordLoop_fst, get_pages_of_records, ih]

/-- A concrete Lookup-service backend under which a parent page is
actually fetched and stored: one folder `F` under the root, holding one
record `x` with no components. -/
def dbEnvStoring : DbEnv where
  folders := fun uid _ =>
    if uid = "root" then ⟨[⟨"F", 0⟩], false, ""⟩ else ⟨[], false, ""⟩
  documents := fun uid _ =>
    if uid = "F" then ⟨[⟨"x", 0⟩], false, ""⟩ else ⟨[], false, ""⟩

/-- C10: `DbQueryFetcher.get_pages_of_records` returns the empty list for
every folder and locus (its `record_pages` accumulator is threaded through
unchanged), so `DbQueryFetcher.folder_traversal`'s returned page list is
always empty — even on a run (last conjunct) that does fetch and store a
record page. -/
theorem c10_db_record_pages_empty :
    (∀ (env : DbEnv) (folderUid : String) (pagePfx : List String)
        (fuel pageCount : Nat) (resumeAfter : String) (acc : List (List Doc)),
      (dbRecordLoop env folderUid pagePfx fuel pageCount resumeAfter acc).1 = acc)
    ∧ (∀ (env : DbEnv) (folderUid : String) (pagePfx : List String) (fuel : Nat),
      (get_pages_of_records env folderUid pagePfx fuel).1 = [])
    ∧ (∀ (env : DbEnv) (rootUid : String) (pagePfx : List String) (fuel : Nat),
      (db_folder_traversal env rootUid pagePfx fuel).1 = [])
    ∧ ((db_folder_traversal dbEnvStoring "root" ["r"] 3).1 = []
        ∧ CrawlEv.storeParent ["r", "f0"] 0 [⟨"x", 0⟩]
            ∈ (db_folder_traversal dbEnvStoring "root" ["r"] 3).2) := by
  refine ⟨fun env folderUid pagePfx fuel pageCount resumeAfter acc =>
      dbRecordLoop_fst env folderUid pagePfx fuel pageCount resumeAfter acc,
    fun env folderUid pagePfx fuel => dbRecordLoop_fst env folderUid pagePfx fuel 0 "" [],
    fun env rootUid pagePfx fuel => dbTraversalInner_fst env pagePfx fuel _ 0,
    by decide, by decide⟩

/-- A backend whose every response is the anomalous combination: zero
entries together with `isNextPageAvailable = true`. -/
def apiAnomalous : NuxeoApiEnv where
  folders := fun _ _ => ⟨[], true, ""⟩
  parents := fun _ _ => ⟨[], true, ""⟩
  comps := fun _ _ => ⟨[], true, ""⟩

/-- The same anomalous backend for the Lookup-service variant. -/
def dbAnomalous : DbEnv where
  folders := fun _ _ => ⟨[], true, ""⟩
  documents := fun _ _ => ⟨[], true, ""⟩

/-- C2 (code bug): five of the six pagination loops stop after a
zero-entry response even with `isNextPageAvailable = true` — each issues
exactly one request under the always-anomalous backend — but
`DbQueryFetcher.get_child_folders` has no empty-entries guard: under the
same backend it issues one request per unit of fuel, i.e. the Python
`while` loop never terminates. -/
theorem c2_get_child_folders_lacks_guard :
    (∀ (fuel : Nat) (uid : String) (pagePfx : List String) (pageIndex : Nat),
      apiFolderLoop apiAnomalous uid pagePfx (fuel + 1) pageIndex
        = [CrawlEv.reqFolders uid pageIndex])
    ∧ (∀ (fuel : Nat) (uid : String) (pagePfx : List String) (pageIndex : Nat),
      apiRecordLoop apiAnomalous uid pagePfx (fuel + 1) pageIndex
        = [CrawlEv.reqParents uid pageIndex])
    ∧ (∀ (fuel : Nat) (uid : String) (pageIndex : Nat),
      apiComponentLoop apiAnomalous uid (fuel + 1) pageIndex
        = [CrawlEv.reqComps uid pageIndex])
    ∧ (∀ (fuel : Nat) (uid resumeAfter : String),
      dbCollectComponents dbAnomalous uid (fuel + 1) resumeAfter = ([], 1))
    ∧ (∀ (fuel : Nat) (uid : String) (pagePfx : List String) (pageCount : Nat)
        (resumeAfter : String) (acc : List (List Doc)),
      dbRecordLoop dbAnomalous uid pagePfx (fuel + 1) pageCount resumeAfter acc
        = (acc, [CrawlEv.reqDbDocs uid resumeAfter]))
    ∧ (∀ (fuel : Nat) (uid resumeAfter : String),
      (get_child_folders dbAnomalous uid fuel resumeAfter).2 = fuel) := by
  refine ⟨fun fuel uid pagePfx pageIndex => by simp [apiFolderLoop, apiAnomalous],
    fun fuel uid pagePfx pageIndex => by simp [apiRecordLoop, apiAnomalous],
    fun fuel uid pageIndex => by simp [apiComponentLoop, apiAnomalous],
    fun fuel uid resumeAfter => by simp [dbCollectComponents, dbAnomalous],
    fun fuel uid pagePfx pageCount resumeAfter acc => by
      simp [dbRecordLoop, dbAnomalous],
    ?_⟩
  intro fuel
  induction fuel with
  | zero => intro uid resumeAfter; rfl
  | succ f ih =>
    intro uid resumeAfter
    have hresp : dbAnomalous.folders uid resumeAfter = ⟨[], true, ""⟩ := rfl
    simp only [get_child_folders, hresp]
    simp [ih uid ""]

/-- C1: both sides of each equality check in the comparison driver are the
result of identical `get_records` calls with the key `'nuxeoapi'`, so any
successful run reports both loaded pairs equal — the reported equality
never diffs the two backends against each other. -/
theorem c1_compare_never_diffs_backends (storage : DataStorage) (env : LoaderEnv)
    (collection_id version : String) (r : CompareReport)
    (h : compare_main storage env collection_id version = .ok r) :
    r.dbqueryParent = r.nuxeoapiParent ∧ r.parentsEqual = true
      ∧ r.dbqueryChild = r.nuxeoapiChild ∧ r.childrenEqual = true := by
  unfold compare_main at h
  cases hp : get_records storage env collection_id version "nuxeoapi" false with
  | error e => rw [hp] at h; simp [Bind.bind, Except.bind] at h
  | ok p =>
    cases hc : get_records storage env collection_id version "nuxeoapi" true with
    | error e => rw [hp, hc] at h; simp [Bind.bind, Except.bind] at h
    | ok c =>
      rw [hp, hc] at h
      simp only [Bind.bind, Except.bind, pure, Except.pure, Except.ok.injEq] at h
      subst h
      simp

/-- A one-file storage world on which `compare_main` succeeds. -/
def c1Storage : DataStorage := ⟨"file:///md", "file", "", "/md"⟩

/-- Its loader collaborators: one regular file whose content is one
record line. -/
def c1Loader : LoaderEnv :=
  ⟨fun _ => ["a.jsonl"], fun _ => true, fun _ => "x\n", fun _ => [], fun _ => ""⟩

/-- The report that run produces. -/
def c1Report : CompareReport := ⟨["x\n"], ["x\n"], true, ["x\n"], ["x\n"], true⟩

theorem c1_compare_never_diffs_backends_witness :
    c1Report.dbqueryParent = c1Report.nuxeoapiParent ∧ c1Report.parentsEqual = true
      ∧ c1Report.dbqueryChild = c1Report.nuxeoapiChild ∧ c1Report.childrenEqual = true :=
  c1_compare_never_diffs_backends c1Storage c1Loader "26943" "v1" c1Report rfl

/-- C8: for every key, the loader raises exactly when it finds zero record
lines, with an error naming the collection and the resolved storage
location, and otherwise returns the loaded record sequence. -/
theorem c8_no_data_found (storage : DataStorage) (env : LoaderEnv)
    (collection_id version query_method : String) (children : Bool) :
    (storage.store = "file" →
      (fileRecords storage env collection_id version query_method children = [] →
        get_records storage env collection_id version query_method children
          = .error ("No metadata records found for collection " ++ collection_id
              ++ " at " ++ ("file://"
                ++ resolvedPath storage collection_id version query_method children)))
      ∧ (fileRecords storage env collection_id version query_method children ≠ [] →
        get_records storage env collection_id version query_method children
          = .ok (fileRecords storage env collection_id version query_method children)))
    ∧ (storage.store = "s3" →
      (s3Records storage env collection_id version query_method children = [] →
        get_records storage env collection_id version query_method children
          = .error ("No metadata records found for collection " ++ collection_id
              ++ " at " ++ ("s3://" ++ storage.bucket ++ "/" ++ dropLeadingSlashes
                (resolvedPath storage collection_id version query_method children))))
      ∧ (s3Records storage env collection_id version query_method children ≠ [] →
        get_records storage env collection_id version query_method children
          = .ok (s3Records storage env collection_id version query_method children))) := by
  constructor
  · intro hfile
    constructor
    · intro hempty
      simp [get_records, hfile, hempty]
    · intro hne
      simp [get_records, hfile, List.isEmpty_iff, hne]
  · intro hs3
    have hnotfile : storage.store ≠ "file" := by rw [hs3]; decide
    constructor
    · intro hempty
      simp [get_records, hs3, hnotfile, hempty]
    · intro hne
      simp [get_records, hs3, hnotfile, List.isEmpty_iff, hne]

/-- An empty storage world: listing any directory yields nothing. -/
def c8EmptyLoader : LoaderEnv :=
  ⟨fun _ => [], fun _ => false, fun _ => "", fun _ => [], fun _ => ""⟩

theorem c8_no_data_found_witness :
    (get_records c1Storage c8EmptyLoader "26943" "v1" "nuxeoapi" false
      = .error ("No metadata records found for collection " ++ "26943"
          ++ " at " ++ ("file://" ++ resolvedPath c1Storage "26943" "v1" "nuxeoapi" false)))
    ∧ (get_records c1Storage c1Loader "26943" "v1" "nuxeoapi" false
      = .ok (fileRecords c1Storage c1Loader "26943" "v1" "nuxeoapi" false)) :=
  ⟨((c8_no_data_found c1Storage c8EmptyLoader "26943" "v1" "nuxeoapi" false).1
      rfl).1 (by decide),
   ((c8_no_data_found c1Storage c1Loader "26943" "v1" "nuxeoapi" false).1
      rfl).2 (by decide)⟩

theorem string_mk_append_nl (s : String) : String.mk (s.data ++ ['\n']) = s ++ "\n" := by
  cases s; rfl

theorem splitAfterNl_joinSep :
    ∀ (lines : List String), lines ≠ [] → (∀ l ∈ lines, '\n' ∉ l.data) →
      splitAfterNlAux [] ((joinSep "\n" lines ++ "\n").data)
        = lines.map (fun l => l.data ++ ['\n']) := by
  intro lines
  induction lines with
  | nil => intro h; exact absurd rfl h
  | cons l rest ih =>
    intro _ hnl
    have hl : '\n' ∉ l.data := hnl l (List.mem_cons_self l rest)
    cases rest with
    | nil =>
      have : (joinSep "\n" [l] ++ "\n").data = l.data ++ '\n' :: [] := by
        simp [joinSep, string_data_append]
      rw [this, splitAfterNlAux_append l.data [] [] hl]
      simp [splitAfterNlAux]
    | cons l2 rest2 =>
      have hrest : ∀ x ∈ l2 :: rest2, '\n' ∉ x.data :=
        fun x hx => hnl x (List.mem_cons_of_mem _ hx)
      have hdata : (joinSep "\n" (l :: l2 :: rest2) ++ "\n").data
          = l.data ++ '\n' :: (joinSep "\n" (l2 :: rest2) ++ "\n").data := by
        show (((l ++ "\n") ++ joinSep "\n" (l2 :: rest2)) ++ "\n").data = _
        simp only [string_data_append]
        simp
      rw [hdata, splitAfterNlAux_append l.data [] _ hl]
      rw [ih (by simp) hrest]
      simp

/-- C6: round-trip — writing a non-empty record sequence as a jsonl
artifact and loading it back through the comparison loader reproduces the
record sequence line for line, in order: each loaded line is the
serialized record plus its newline terminator, and stripping the
terminators recovers the serialized records exactly.  The last conjunct
runs the loader (`get_records`) on a world holding just that artifact. -/
theorem c6_artifact_round_trip {α : Type} (serialize : α → String) (records : List α)
    (storage : DataStorage) (collection_id version query_method fname : String)
    (hstore : storage.store = "file")
    (hne : records ≠ [])
    (hnl : ∀ r ∈ records, '\n' ∉ (serialize r).data) :
    readlines (jsonlContent serialize records)
        = records.map (fun r => serialize r ++ "\n")
    ∧ (readlines (jsonlContent serialize records)).map (fun s => String.mk (stripNl s.data))
        = records.map serialize
    ∧ get_records storage
        ⟨fun _ => [fname], fun _ => true,
          fun _ => jsonlContent serialize records, fun _ => [], fun _ => ""⟩
        collection_id version query_method false
      = .ok (records.map (fun r => serialize r ++ "\n")) := by
  have hmapne : records.map serialize ≠ [] := by
    intro h
    exact hne (List.map_eq_nil_iff.mp h)
  have hmapnl : ∀ l ∈ records.map serialize, '\n' ∉ l.data := by
    intro l hl
    rcases List.mem_map.mp hl with ⟨r, hr, rfl⟩
    exact hnl r hr
  have hsplit := splitAfterNl_joinSep (records.map serialize) hmapne hmapnl
  have hlines : readlines (jsonlContent serialize records)
      = records.map (fun r => serialize r ++ "\n") := by
    unfold readlines jsonlContent
    rw [hsplit]
    rw [List.map_map, List.map_map]
    refine List.map_congr_left ?_
    intro r _
    exact string_mk_append_nl (serialize r)
  refine ⟨hlines, ?_, ?_⟩
  · rw [hlines, List.map_map]
    refine List.map_congr_left ?_
    intro r _
    show String.mk (stripNl ((serialize r ++ "\n").data)) = serialize r
    have hdata : (serialize r ++ "\n").data = (serialize r).data ++ ['\n'] := rfl
    rw [hdata]
    unfold stripNl
    rw [List.getLast?_concat]
    simp only [if_pos rfl]
    rw [List.dropLast_concat]
    cases hs : serialize r
    rfl
  · have hfr : fileRecords storage
        ⟨fun _ => [fname], fun _ => true,
          fun _ => jsonlContent serialize records, fun _ => [], fun _ => ""⟩
        collection_id version query_method false
      = records.map (fun r => serialize r ++ "\n") := by
      unfold fileRecords
      simp [hlines]
    have hfrne : ¬ (fileRecords storage
        ⟨fun _ => [fname], fun _ => true,
          fun _ => jsonlContent serialize records, fun _ => [], fun _ => ""⟩
        collection_id version query_method false).isEmpty := by
      rw [hfr, List.isEmpty_iff]
      intro h
      exact hne (List.map_eq_nil_iff.mp h)
    unfold get_records
    rw [if_pos hstore, if_neg hfrne, hfr]

theorem c6_artifact_round_trip_witness :
    (readlines (jsonlContent (fun d : Doc => d.uid) [⟨"u1", 0⟩, ⟨"u2", 1⟩])
        = [⟨"u1", 0⟩, ⟨"u2", 1⟩].map (fun r : Doc => r.uid ++ "\n"))
    ∧ ((readlines (jsonlContent (fun d : Doc => d.uid) [⟨"u1", 0⟩, ⟨"u2", 1⟩])).map
          (fun s => String.mk (stripNl s.data))
        = [⟨"u1", 0⟩, ⟨"u2", 1⟩].map (fun d : Doc => d.uid))
    ∧ get_records c1Storage
        ⟨fun _ => ["a.jsonl"], fun _ => true,
          fun _ => jsonlContent (fun d : Doc => d.uid) [⟨"u1", 0⟩, ⟨"u2", 1⟩],
          fun _ => [], fun _ => ""⟩
        "26943" "v1" "nuxeoapi" false
      = .ok ([⟨"u1", 0⟩, ⟨"u2", 1⟩].map (fun r : Doc => r.uid ++ "\n")) :=
  c6_artifact_round_trip (fun d : Doc => d.uid) [⟨"u1", 0⟩, ⟨"u2", 1⟩]
    c1Storage "26943" "v1" "nuxeoapi" "a.jsonl" rfl (by decide) (by decide)


theorem insertPos_perm (c : Doc) (s : List Doc) : List.Perm (insertPos c s) (c :: s) := by
  induction s with
  | nil => exact List.Perm.refl _
  | cons d ds ih =>
    unfold insertPos
    by_cases h : d.pos ≤ c.pos
    · simp only [if_pos h]
      exact ((ih.cons d).trans (List.Perm.swap c d ds))
    · simp [if_neg h]

theorem sortFold_perm (l : List Doc) :
    ∀ acc, List.Perm (l.foldl (fun a c => insertPos c a) acc) (acc ++ l) := by
  induction l with
  | nil => intro acc; simp
  | cons c l' ih =>
    intro acc
    have step : (c :: l').foldl (fun a c => insertPos c a) acc
        = l'.foldl (fun a c => insertPos c a) (insertPos c acc) := rfl
    rw [step]
    refine ((ih _).trans ?_)
    refine (((insertPos_perm c acc).append_right l').trans ?_)
    exact List.perm_middle.symm

theorem sortByPos_perm (l : List Doc) : List.Perm (sortByPos l) l := by
  simpa using sortFold_perm l []

theorem insertPos_pairwise (c : Doc) (s : List Doc)
    (hs : List.Pairwise (fun a b => a.pos ≤ b.pos) s) :
    List.Pairwise (fun a b => a.pos ≤ b.pos) (insertPos c s) := by
  induction s with
  | nil => simp [insertPos]
  | cons d ds ih =>
    rcases List.pairwise_cons.mp hs with ⟨hd, hds⟩
    unfold insertPos
    by_cases h : d.pos ≤ c.pos
    · simp only [if_pos h]
      refine List.pairwise_cons.mpr ⟨?_, ih hds⟩
      intro x hx
      have hx' : x ∈ c :: ds := (insertPos_perm c ds).mem_iff.mp hx
      rcases List.mem_cons.mp hx' with rfl | hx''
      · exact h
      · exact hd x hx''
    · simp only [if_neg h]
      have hcd : c.pos ≤ d.pos := by omega
      refine List.pairwise_cons.mpr ⟨?_, hs⟩
      intro x hx
      rcases List.mem_cons.mp hx with rfl | hx'
      · exact hcd
      · exact Nat.le_trans hcd (hd x hx')

theorem sortFold_pairwise (l : List Doc) :
    ∀ acc, List.Pairwise (fun a b => a.pos ≤ b.pos) acc →
      List.Pairwise (fun a b => a.pos ≤ b.pos)
        (l.foldl (fun a c => insertPos c a) acc) := by
  induction l with
  | nil => intro acc h; exact h
  | cons c l' ih => intro acc h; exact ih _ (insertPos_pairwise c acc h)

theorem sortByPos_pairwise (l : List Doc) :
    List.Pairwise (fun a b => a.pos ≤ b.pos) (sortByPos l) :=
  sortFold_pairwise l [] (List.Pairwise.nil)

theorem insertPos_filter (c : Doc) (p : Nat) (s : List Doc)
    (hs : List.Pairwise (fun a b => a.pos ≤ b.pos) s) :
    (insertPos c s).filter (fun d => d.pos == p)
      = s.filter (fun d => d.pos == p) ++ [c].filter (fun d => d.pos == p) := by
  induction s with
  | nil => simp [insertPos]
  | cons d ds ih =>
    rcases List.pairwise_cons.mp hs with ⟨hd, hds⟩
    unfold insertPos
    by_cases h : d.pos ≤ c.pos
    · simp only [if_pos h]
      by_cases hqd : d.pos == p <;> simp [List.filter_cons, hqd, ih hds]
    · simp only [if_neg h]
      have hcd : c.pos < d.pos := by omega
      by_cases hcp : c.pos == p
      · have hcp' : c.pos = p := by simpa using hcp
        have hnone : (d :: ds).filter (fun d => d.pos == p) = [] := by
          rw [List.filter_eq_nil_iff]
          intro x hx
          have hxpos : d.pos ≤ x.pos := by
            rcases List.mem_cons.mp hx with rfl | hx'
            · exact Nat.le_refl _
            · exact hd x hx'
          simp only [beq_iff_eq]
          omega
        simp [List.filter_cons, hcp, hnone]
      · simp [List.filter_cons, hcp]

theorem sortFold_filter (p : Nat) (l : List Doc) :
    ∀ acc, List.Pairwise (fun a b => a.pos ≤ b.pos) acc →
      (l.foldl (fun a c => insertPos c a) acc).filter (fun d => d.pos == p)
        = acc.filter (fun d => d.pos == p) ++ l.filter (fun d => d.pos == p) := by
  induction l with
  | nil => intro acc _; simp
  | cons c l' ih =>
    intro acc hacc
    have step : (c :: l').foldl (fun a c => insertPos c a) acc
        = l'.foldl (fun a c => insertPos c a) (insertPos c acc) := rfl
    rw [step, ih _ (insertPos_pairwise c acc hacc), insertPos_filter c p acc hacc]
    have hsplit : (c :: l') = [c] ++ l' := rfl
    rw [hsplit, List.filter_append, List.append_assoc]

theorem sortByPos_filter (l : List Doc) (p : Nat) :
    (sortByPos l).filter (fun d => d.pos == p) = l.filter (fun d => d.pos == p) := by
  simpa using sortFold_filter p l [] List.Pairwise.nil

theorem chunk100_cons (l : List Doc) (h : l ≠ []) :
    chunk100 l = l.take 100 :: chunk100 (l.drop 100) := by
  have hn : 0 < l.length := List.length_pos.mpr h
  have hq : (l.length + 99) / 100 = ((l.length - 100) + 99) / 100 + 1 := by omega
  unfold chunk100
  rw [hq, List.range_succ_eq_map, List.map_cons, List.map_map]
  simp only [Nat.zero_mul, List.drop_zero, List.length_drop]
  refine congrArg _ ?_
  refine List.map_congr_left ?_
  intro j _
  show (l.drop ((j + 1) * 100)).take 100 = ((l.drop 100).drop (j * 100)).take 100
  rw [List.drop_drop]
  have harith : (j + 1) * 100 = j * 100 + 100 := by ring
  rw [harith]
  have harith2 : j * 100 + 100 = 100 + j * 100 := by ring
  rw [harith2]

theorem chunk100_flatten_aux : ∀ (fuel : Nat) (l : List Doc), l.length ≤ fuel →
    (chunk100 l).flatten = l := by
  intro fuel
  induction fuel with
  | zero =>
    intro l hl
    have : l = [] := List.length_eq_zero.mp (Nat.le_zero.mp hl)
    subst this
    rfl
  | succ f ih =>
    intro l hl
    by_cases h : l = []
    · subst h; rfl
    · rw [chunk100_cons l h, List.flatten_cons]
      have hlen : (l.drop 100).length ≤ f := by
        rw [List.length_drop]
        have : 0 < l.length := List.length_pos.mpr h
        omega
      rw [ih _ hlen, List.take_append_drop]

theorem chunk100_flatten (l : List Doc) : (chunk100 l).flatten = l :=
  chunk100_flatten_aux l.length l (Nat.le_refl _)

/-- Two raw component pages holding positions [5, 1] and [3]. -/
def envC3a : DbEnv where
  folders := fun _ _ => ⟨[], false, ""⟩
  documents := fun _ r =>
    if r = "" then ⟨[⟨"a", 5⟩, ⟨"b", 1⟩], true, "t"⟩
    else if r = "t" then ⟨[⟨"c", 3⟩], false, ""⟩
    else ⟨[], false, ""⟩

/-- Three raw component pages holding 100 + 100 + 50 = 250 components at
positions 0..249. -/
def envC3b : DbEnv where
  folders := fun _ _ => ⟨[], false, ""⟩
  documents := fun _ r =>
    if r = "" then ⟨(List.range 100).map (fun i => ⟨"x", i⟩), true, "t1"⟩
    else if r = "t1" then ⟨(List.range 100).map (fun i => ⟨"x", 100 + i⟩), true, "t2"⟩
    else if r = "t2" then ⟨(List.range 50).map (fun i => ⟨"x", 200 + i⟩), false, ""⟩
    else ⟨[], false, ""⟩

set_option maxRecDepth 10000 in
/-- C3: the Lookup-service component rebatcher exhausts all component
pages into one list, sorts it by the `pos` field (ascending — the output
is pairwise ordered — and a permutation of the input, stable in that the
occurrences at each position value keep their input order), then re-chunks
into windows of 100 whose concatenation is the sorted list; components at
positions [5, 1, 3] split across two raw pages come out in order
[1, 3, 5], and 250 components produce exactly batches of sizes
[100, 100, 50]. -/
theorem c3_component_rebatcher :
    (∀ (env : DbEnv) (uid : String) (fuel : Nat),
      get_pages_of_child_components env uid fuel
        = chunk100 (sortByPos (dbCollectComponents env uid fuel "").1))
    ∧ (∀ l : List Doc, List.Perm (sortByPos l) l)
    ∧ (∀ l : List Doc, List.Pairwise (fun a b => a.pos ≤ b.pos) (sortByPos l))
    ∧ (∀ (l : List Doc) (p : Nat),
      (sortByPos l).filter (fun d => d.pos == p) = l.filter (fun d => d.pos == p))
    ∧ (∀ l : List Doc, (chunk100 l).flatten = l)
    ∧ ((get_pages_of_child_components envC3a "rec" 3).flatten.map Doc.pos = [1, 3, 5])
    ∧ ((get_pages_of_child_components envC3b "rec" 5).map List.length = [100, 100, 50]) :=
  ⟨fun _ _ _ => rfl, sortByPos_perm, sortByPos_pairwise, sortByPos_filter,
    chunk100_flatten, by decide, by decide⟩


theorem visitLoci_append (a b : List CrawlEv) :
    visitLoci (a ++ b) = visitLoci a ++ visitLoci b := by
  unfold visitLoci
  exact List.filterMap_append a b _

theorem visitLoci_reqFolders_cons (u : String) (k : Nat) (l : List CrawlEv) :
    visitLoci (CrawlEv.reqFolders u k :: l) = visitLoci l := rfl

theorem visitLoci_reqParents_cons (u : String) (k : Nat) (l : List CrawlEv) :
    visitLoci (CrawlEv.reqParents u k :: l) = visitLoci l := rfl

theorem visitLoci_reqComps_cons (u : String) (k : Nat) (l : List CrawlEv) :
    visitLoci (CrawlEv.reqComps u k :: l) = visitLoci l := rfl

theorem visitLoci_storeParent_cons (p : List String) (k : Nat) (rs : List Doc)
    (l : List CrawlEv) :
    visitLoci (CrawlEv.storeParent p k rs :: l) = visitLoci l := rfl

theorem visitLoci_storeComponent_cons (u : String) (k : Nat) (rs : List Doc)
    (l : List CrawlEv) :
    visitLoci (CrawlEv.storeComponent u k rs :: l) = visitLoci l := rfl

theorem visitLoci_visit_cons (u : String) (p : List String) (l : List CrawlEv) :
    visitLoci (CrawlEv.visit u p :: l) = p :: visitLoci l := rfl

theorem visitLoci_componentLoop (env : NuxeoApiEnv) (uid : String) :
    ∀ (fuel pageIndex : Nat), visitLoci (apiComponentLoop env uid fuel pageIndex) = [] := by
  intro fuel
  induction fuel with
  | zero => intro pageIndex; rfl
  | succ f ih =>
    intro pageIndex
    simp only [apiComponentLoop]
    rw [visitLoci_reqComps_cons]
    by_cases he : (env.comps uid pageIndex).entries.isEmpty
    · rw [if_pos he]; rfl
    · rw [if_neg he, visitLoci_storeComponent_cons]
      by_cases hm : (env.comps uid pageIndex).isNextPageAvailable
      · rw [if_pos hm]; exact ih _
      · rw [if_neg hm]; rfl

theorem visitLoci_recordComps (env : NuxeoApiEnv) (fuel : Nat) :
    ∀ rs : List Doc, visitLoci (apiRecordComps env fuel rs) = [] := by
  intro rs
  induction rs with
  | nil => rfl
  | cons r rest ih =>
    unfold apiRecordComps
    rw [visitLoci_append, visitLoci_componentLoop, ih]
    rfl

theorem visitLoci_recordLoop (env : NuxeoApiEnv) (uid : String) (pagePfx : List String) :
    ∀ (fuel pageIndex : Nat), visitLoci (apiRecordLoop env uid pagePfx fuel pageIndex) = [] := by
  intro fuel
  induction fuel with
  | zero => intro pageIndex; rfl
  | succ f ih =>
    intro pageIndex
    simp only [apiRecordLoop]
    rw [visitLoci_reqParents_cons]
    by_cases he : (env.parents uid pageIndex).entries.isEmpty
    · rw [if_pos he]; rfl
    · rw [if_neg he, visitLoci_storeParent_cons, visitLoci_append, visitLoci_recordComps]
      by_cases hm : (env.parents uid pageIndex).isNextPageAvailable
      · rw [if_pos hm, ih]; rfl
      · rw [if_neg hm]; rfl

theorem visitLoci_getPages (env : NuxeoApiEnv) (folder : Doc)
    (pagePfx : List String) (fuel : Nat) :
    visitLoci (get_pages_of_documents env folder pagePfx fuel) = [pagePfx] := by
  unfold get_pages_of_documents
  rw [visitLoci_visit_cons, visitLoci_recordLoop]

theorem visitLoci_folderInner (env : NuxeoApiEnv) (pagePfx2 : List String) (fuel : Nat) :
    ∀ (entries : List Doc) (i : Nat),
      visitLoci (apiFolderInner env pagePfx2 fuel i entries)
        = (List.range entries.length).map (fun j => pagePfx2 ++ ["f" ++ natRepr (i + j)]) := by
  intro entries
  induction entries with
  | nil => intro i; rfl
  | cons folder rest ih =>
    intro i
    unfold apiFolderInner
    rw [visitLoci_append, visitLoci_getPages, ih (i + 1)]
    rw [List.length_cons, List.range_succ_eq_map, List.map_cons, List.map_map]
    simp only [List.singleton_append, Function.comp, Nat.add_zero]
    refine congrArg _ ?_
    refine List.map_congr_left ?_
    intro j _
    show pagePfx2 ++ ["f" ++ natRepr (i + 1 + j)] = pagePfx2 ++ ["f" ++ natRepr (i + (j + 1))]
    have harith : i + 1 + j = i + (j + 1) := by omega
    rw [harith]

/-- The loci of the folders `folder_traversal` visits, read off directly
from the backend responses: page `k` of the root's folder listing
contributes loci `pagePfx ++ ["fp{k}", "f{j}"]` for `j` below its entry
count. -/
def folderLociSpec (env : NuxeoApiEnv) (rootUid : String) (pagePfx : List String) :
    Nat → Nat → List (List String)
  | 0, _ => []
  | fuel + 1, k =>
    let resp := env.folders rootUid k
    if resp.entries.isEmpty then []
    else
      (List.range resp.entries.length).map
          (fun j => pagePfx ++ ["fp" ++ natRepr k, "f" ++ natRepr j])
        ++ (if resp.isNextPageAvailable then folderLociSpec env rootUid pagePfx fuel (k + 1)
            else [])

theorem visitLoci_folderLoop (env : NuxeoApiEnv) (rootUid : String) (pagePfx : List String) :
    ∀ (fuel k : Nat),
      visitLoci (apiFolderLoop env rootUid pagePfx fuel k)
        = folderLociSpec env rootUid pagePfx fuel k := by
  intro fuel
  induction fuel with
  | zero => intro k; rfl
  | succ f ih =>
    intro k
    simp only [apiFolderLoop, folderLociSpec]
    rw [visitLoci_reqFolders_cons]
    by_cases he : (env.folders rootUid k).entries.isEmpty
    · rw [if_pos he, if_pos he]; rfl
    · rw [if_neg he, if_neg he, visitLoci_append, visitLoci_folderInner]
      congr 1
      · refine List.map_congr_left ?_
        intro j _
        show (pagePfx ++ ["fp" ++ natRepr k]) ++ ["f" ++ natRepr (0 + j)]
            = pagePfx ++ ["fp" ++ natRepr k, "f" ++ natRepr j]
        rw [Nat.zero_add, List.append_assoc]
        rfl
      · by_cases hm : (env.folders rootUid k).isNextPageAvailable
        · rw [if_pos hm, if_pos hm]
          exact ih _
        · rw [if_neg hm, if_neg hm]
          rfl

theorem locusSeg_inj (pagePfx : List String) {k j k' j' : Nat}
    (h : pagePfx ++ ["fp" ++ natRepr k, "f" ++ natRepr j]
        = pagePfx ++ ["fp" ++ natRepr k', "f" ++ natRepr j']) : k = k' ∧ j = j' := by
  have h2 := List.append_cancel_left h
  simp only [List.cons.injEq, and_true] at h2
  exact ⟨natRepr_inj (string_append_left_cancel h2.1),
    natRepr_inj (string_append_left_cancel h2.2)⟩

theorem folderLociSpec_shape (env : NuxeoApiEnv) (rootUid : String) (pagePfx : List String) :
    ∀ (fuel k : Nat) (v : List String), v ∈ folderLociSpec env rootUid pagePfx fuel k →
      ∃ k' j, k ≤ k' ∧ v = pagePfx ++ ["fp" ++ natRepr k', "f" ++ natRepr j] := by
  intro fuel
  induction fuel with
  | zero => intro k v h; cases h
  | succ f ih =>
    intro k v h
    simp only [folderLociSpec] at h
    by_cases he : (env.folders rootUid k).entries.isEmpty
    · rw [if_pos he] at h; cases h
    · rw [if_neg he] at h
      rcases List.mem_append.mp h with h1 | h2
      · rcases List.mem_map.mp h1 with ⟨j, _, rfl⟩
        exact ⟨k, j, Nat.le_refl k, rfl⟩
      · by_cases hm : (env.folders rootUid k).isNextPageAvailable
        · rw [if_pos hm] at h2
          rcases ih (k + 1) v h2 with ⟨k', j, hk, hv⟩
          exact ⟨k', j, by omega, hv⟩
        · rw [if_neg hm] at h2; cases h2

theorem folderLociSpec_nodup (env : NuxeoApiEnv) (rootUid : String) (pagePfx : List String) :
    ∀ (fuel k : Nat), (folderLociSpec env rootUid pagePfx fuel k).Nodup := by
  intro fuel
  induction fuel with
  | zero => intro k; exact List.nodup_nil
  | succ f ih =>
    intro k
    simp only [folderLociSpec]
    by_cases he : (env.folders rootUid k).entries.isEmpty
    · rw [if_pos he]; exact List.nodup_nil
    · rw [if_neg he]
      refine List.Nodup.append ?_ ?_ ?_
      · refine List.Nodup.map ?_ (List.nodup_range _)
        intro a b hab
        exact (locusSeg_inj pagePfx hab).2
      · by_cases hm : (env.folders rootUid k).isNextPageAvailable
        · rw [if_pos hm]; exact ih _
        · rw [if_neg hm]; exact List.nodup_nil
      · intro v hv1 hv2
        rcases List.mem_map.mp hv1 with ⟨j, _, rfl⟩
        by_cases hm : (env.folders rootUid k).isNextPageAvailable
        · rw [if_pos hm] at hv2
          rcases folderLociSpec_shape env rootUid pagePfx f (k + 1) _ hv2 with ⟨k', j', hk, hv⟩
          have := (locusSeg_inj pagePfx hv).1
          omega
        · rw [if_neg hm] at hv2; cases hv2

theorem visitLoci_fetch (env : NuxeoApiEnv) (root : Doc) (fuel : Nat) :
    visitLoci (nuxeoApiFetch env root fuel)
      = ["r"] :: folderLociSpec env root.uid ["r"] fuel 0 := by
  unfold nuxeoApiFetch folder_traversal
  rw [visitLoci_append, visitLoci_getPages, visitLoci_folderLoop]
  rfl

/-- The two-folder tree of the locus-uniqueness scenario: the root's first
(and only) folder page lists F1 and F2, each holding one record and no
components. -/
def c4Env : NuxeoApiEnv where
  folders := fun uid _ =>
    if uid = "root" then ⟨[⟨"F1", 0⟩, ⟨"F2", 0⟩], false, ""⟩ else ⟨[], false, ""⟩
  parents := fun uid _ =>
    if uid = "F1" then ⟨[⟨"rec1", 0⟩], false, ""⟩
    else if uid = "F2" then ⟨[⟨"rec2", 0⟩], false, ""⟩
    else ⟨[], false, ""⟩
  comps := fun _ _ => ⟨[], false, ""⟩

/-- C4: the locus segment stack of the API-variant crawl is pushed per
folder page (`fp{page_index}`) and per folder (`f{i}`) and popped on
return, so the loci at which folders are visited are pairwise distinct in
every crawl, and no visited folder's locus is a prefix of another's; in
the concrete two-folder tree, F1's and F2's record pages are stored at
distinct loci `r-fp0-f0` / `r-fp0-f1`, both prefixed by `r-fp0-`, neither
a prefix of the other. -/
theorem c4_locus_uniqueness :
    (∀ (env : NuxeoApiEnv) (root : Doc) (fuel : Nat),
      (visitLoci (nuxeoApiFetch env root fuel)).Nodup)
    ∧ (∀ (env : NuxeoApiEnv) (rootUid : String) (pagePfx : List String) (fuel : Nat),
      (visitLoci (folder_traversal env rootUid pagePfx fuel)).Nodup)
    ∧ (∀ (env : NuxeoApiEnv) (rootUid : String) (pagePfx : List String) (fuel : Nat),
      List.Pairwise (fun a b => ¬ a <+: b ∧ ¬ b <+: a)
        (visitLoci (folder_traversal env rootUid pagePfx fuel)))
    ∧ (CrawlEv.storeParent ["r", "fp0", "f0"] 0 [⟨"rec1", 0⟩]
          ∈ nuxeoApiFetch c4Env ⟨"root", 0⟩ 5
        ∧ CrawlEv.storeParent ["r", "fp0", "f1"] 0 [⟨"rec2", 0⟩]
          ∈ nuxeoApiFetch c4Env ⟨"root", 0⟩ 5
        ∧ joinSep "-" ["r", "fp0", "f0"] ≠ joinSep "-" ["r", "fp0", "f1"]
        ∧ ("r-fp0-".data.isPrefixOf (joinSep "-" ["r", "fp0", "f0"]).data) = true
        ∧ ("r-fp0-".data.isPrefixOf (joinSep "-" ["r", "fp0", "f1"]).data) = true
        ∧ (["r", "fp0", "f0"].isPrefixOf ["r", "fp0", "f1"]) = false
        ∧ (["r", "fp0", "f1"].isPrefixOf ["r", "fp0", "f0"]) = false) := by
  refine ⟨?_, ?_, ?_, by decide, by decide, by decide, by decide, by decide,
    by decide, by decide⟩
  · intro env root fuel
    rw [visitLoci_fetch]
    refine List.nodup_cons.mpr ⟨?_, folderLociSpec_nodup env root.uid ["r"] fuel 0⟩
    intro hmem
    rcases folderLociSpec_shape env root.uid ["r"] fuel 0 _ hmem with ⟨k, j, _, hv⟩
    have := congrArg List.length hv
    simp at this
  · intro env rootUid pagePfx fuel
    unfold folder_traversal
    rw [visitLoci_folderLoop]
    exact folderLociSpec_nodup env rootUid pagePfx fuel 0
  · intro env rootUid pagePfx fuel
    unfold folder_traversal
    rw [visitLoci_folderLoop]
    refine List.Pairwise.imp_of_mem ?_ (folderLociSpec_nodup env rootUid pagePfx fuel 0)
    intro a b ha hb hne
    rcases folderLociSpec_shape env rootUid pagePfx fuel 0 _ ha with ⟨k, j, _, rfl⟩
    rcases folderLociSpec_shape env rootUid pagePfx fuel 0 _ hb with ⟨k', j', _, rfl⟩
    constructor
    · intro hpre
      exact hne (hpre.eq_of_length (by simp))
    · intro hpre
      exact hne (hpre.eq_of_length (by simp)).symm

theorem c4_locus_uniqueness_witness :
    (visitLoci (nuxeoApiFetch c4Env ⟨"root", 0⟩ 3)).Nodup ∧
    (visitLoci (folder_traversal c4Env "root" ["r"] 3)).Nodup :=
  ⟨c4_locus_uniqueness.1 c4Env ⟨"root", 0⟩ 3,
   (c4_locus_uniqueness.2.1) c4Env "root" ["r"] 3⟩
